import Mathlib

/-!
Shallow embedding of the multi-agent judging core of `working_functions.py`
(`run_judgment_llm`, `create_agent.handle_tool_call`, `run_agent_threaded`,
`process_single_row_threaded`, `run_parallel_system_threaded`), together with
theorems settling the frozen claims about the natural-language specification.

External effects (the Gemini chat round-trips and the stdlib JSON parse of the
service's reply text) are modelled as explicit behaviour parameters: each call
either raises with a message or yields a parsed JSON value, exactly the two
outcomes the Python `try` blocks distinguish.
-/

namespace Swsn

/-- JSON values as produced by Python's `json.loads` / consumed by `json.dumps`.
`null` doubles as Python's `None` (which is what `dict.get` yields for a
missing key and what `json.dumps` serializes as `null`). Numbers are modelled
as integers; every number the program itself creates is an integer. -/
inductive JValue where
  | null : JValue
  | bool : Bool → JValue
  | num : Int → JValue
  | str : String → JValue
  | arr : List JValue → JValue
  | obj : List (String × JValue) → JValue
deriving BEq, Repr

/-- A Python `dict` with string keys: an insertion-ordered association list.
All dicts built by the program have pairwise distinct keys. -/
abbrev Dict := List (String × JValue)

/-- First-occurrence lookup: Python `d[k]` / `k in d`, as an `Option`. -/
def dictGet : Dict → String → Option JValue
  | [], _ => none
  | (k0, v0) :: rest, k => if k = k0 then some v0 else dictGet rest k

/-- Python `d.get(k)`: `None` when the key is absent. -/
def pyGet (d : Dict) (k : String) : JValue :=
  (dictGet d k).getD JValue.null

/-- Python `d.get(k, dflt)`: the default only when the key is absent. -/
def pyGetD (d : Dict) (k : String) (dflt : JValue) : JValue :=
  (dictGet d k).getD dflt

/-- Python `d[k] = v`: replace the value in place when the key exists,
append the pair otherwise (insertion order preserved). -/
def dictSet : Dict → String → JValue → Dict
  | [], k, v => [(k, v)]
  | (k0, v0) :: rest, k, v =>
      if k0 = k then (k0, v) :: rest else (k0, v0) :: dictSet rest k v

/-- Python `d.update(other)`: assign each of `other`'s pairs in order. -/
def dictUpdate (d : Dict) (other : Dict) : Dict :=
  other.foldl (fun acc p => dictSet acc p.1 p.2) d

/-- JSON string escaping as performed by `json.dumps` on the characters that
can occur in this program's strings. -/
def escapeChar (c : Char) : String :=
  if c = '\"' then "\\\""
  else if c = '\\' then "\\\\"
  else if c = '\n' then "\\n"
  else if c = '\t' then "\\t"
  else if c = '\r' then "\\r"
  else String.singleton c

def escapeString (s : String) : String :=
  String.join (s.data.map escapeChar)

/-- Python `json.dumps` with its default separators `, ` and `: `. -/
def dumps : JValue → String
  | JValue.null => "null"
  | JValue.bool true => "true"
  | JValue.bool false => "false"
  | JValue.num n => toString n
  | JValue.str s => "\"" ++ escapeString s ++ "\""
  | JValue.arr xs =>
      "[" ++ String.intercalate ", "
        (xs.attach.map (fun x =>
          have := List.sizeOf_lt_of_mem x.2
          dumps x.1)) ++ "]"
  | JValue.obj fs =>
      "\x7b" ++
        String.intercalate ", "
          (fs.attach.map (fun p =>
            have := List.sizeOf_lt_of_mem p.2
            "\"" ++ escapeString p.1.1 ++ "\": " ++ dumps p.1.2)) ++
        "\x7d"
decreasing_by
  · simp only [JValue.arr.sizeOf_spec]
    omega
  · have h2 : sizeOf p.1.2 < sizeOf p.1 := by
      cases p.1 with
      | mk a b => simp
    simp only [JValue.obj.sizeOf_spec]
    omega

/-- Behaviour of one `run_judgment_llm` interaction with the external service:
given `(criteria_name, criteria_desc, content)`, either the request or the
JSON parse of its reply raises (with the exception's message), or `json.loads`
returns a JSON value. -/
abbrev JudgeSvc := String → String → JValue → Except String JValue

/-- `run_judgment_llm` (working_functions.py lines 22-56): call the service,
parse its reply; any exception is caught and converted into the degraded
score-0 result. -/
def run_judgment_llm (svc : JudgeSvc)
    (criteria_name criteria_desc : String) (content : JValue) : JValue :=
  match svc criteria_name criteria_desc content with
  | Except.ok v => v
  | Except.error e =>
      JValue.obj
        [("score", JValue.num 0),
         ("explanation", JValue.str ("Judge crashed: " ++ e)),
         ("graph_nodes", JValue.arr []),
         ("graph_edges", JValue.arr [])]

/-- A captured function-call payload (`part.function_call`). -/
structure ToolCall where
  name : String
  args : Dict

/-- Lines 93-95: use the model-supplied `text_content` argument when `args`
is truthy and contains it, otherwise fall back to the original context text. -/
def toolArgText (tool_call : ToolCall) (context_text : JValue) : JValue :=
  match tool_call.args with
  | [] => context_text
  | _ :: _ =>
    match dictGet tool_call.args "text_content" with
    | some v => v
    | none => context_text

/-- `create_agent.handle_tool_call` (lines 90-111), with the closed-over
`agent_name`/`criteria_desc` and the service behaviour made explicit.
`result.get(...)` raises `AttributeError` when `json.loads` produced a
non-`dict` value, so the callback is fallible. -/
def handle_tool_call (svc : JudgeSvc) (agent_name criteria_desc : String)
    (tool_call : ToolCall) (context_text : JValue) : Except String JValue :=
  match run_judgment_llm svc agent_name criteria_desc
      (toolArgText tool_call context_text) with
  | JValue.obj fields =>
      Except.ok (JValue.obj
        [("status", JValue.str "success"),
         ("judgment_score", pyGet fields "score"),
         ("judgment_reason", pyGet fields "explanation"),
         ("graph_nodes", pyGetD fields "graph_nodes" (JValue.arr [])),
         ("graph_edges", pyGetD fields "graph_edges" (JValue.arr []))])
  | _ => Except.error "AttributeError: result has no attribute get"

/-- One part of the first response's first candidate. -/
structure Part where
  function_call : Option ToolCall

/-- One response candidate (`candidate.content.parts` flattened to `parts`). -/
structure Candidate where
  parts : List Part

/-- Chat behaviour of one `run_agent_threaded` run: outcome of the first
(forced-mode) `send_message`, and outcome of the follow-up function-response
`send_message` (which may depend on the tool result being echoed back). -/
structure ChatEnv where
  firstSend : Except String (List Candidate)
  secondSend : JValue → Except String Unit

/-- The tool callback as passed into `run_agent_threaded`. -/
abbrev Handler := ToolCall → JValue → Except String JValue

/-- The three interpolated field names the worker writes for one agent. -/
def agentKeys (agent_name : String) : List String :=
  [agent_name ++ "_grade", agent_name ++ "_reason", agent_name ++ "_graph"]

/-- Lines 123-127: the pre-populated fallback record. -/
def defaultRecord (agent_name : String) : Dict :=
  [(agent_name ++ "_grade", JValue.num 0),
   (agent_name ++ "_reason", JValue.str "Failed to run"),
   (agent_name ++ "_graph", JValue.str "[]")]

/-- Lines 157-158: the `except` clause overwrites only the reason field. -/
def setErrorReason (agent_name : String) (d : Dict) (e : String) : Dict :=
  dictSet d (agent_name ++ "_reason") (JValue.str ("Error: " ++ e))

/-- Lines 139-147: copy the callback's dict result into the record
(`isinstance(result, dict)` guard included; a non-dict result leaves the
record untouched). -/
def captureResult (agent_name : String) (d : Dict) (result : JValue) : Dict :=
  match result with
  | JValue.obj fields =>
      let d1 := dictSet d (agent_name ++ "_grade")
        (pyGetD fields "judgment_score" (JValue.num 0))
      let d2 := dictSet d1 (agent_name ++ "_reason")
        (pyGetD fields "judgment_reason" (JValue.str ""))
      let graph_data := JValue.obj
        [("nodes", pyGet fields "graph_nodes"),
         ("edges", pyGet fields "graph_edges")]
      dictSet d2 (agent_name ++ "_graph") (JValue.str (dumps graph_data))
  | _ => d

/-- `run_agent_threaded` (lines 116-161) as explicit control flow: the `try`
block's progress is threaded through so the `except` clause acts on the
record exactly as far as it had been filled in when the exception was raised. -/
def run_agent_threaded (agent_name : String) (env : ChatEnv)
    (handler : Handler) (user_query : JValue) : Dict :=
  let final0 := defaultRecord agent_name
  match env.firstSend with
  | Except.error e => setErrorReason agent_name final0 e
  | Except.ok candidates =>
    match candidates with
    | [] => final0
    | c :: _ =>
      match c.parts with
      | [] => final0
      | part :: _ =>
        match part.function_call with
        | none => final0
        | some fc =>
          match handler fc user_query with
          | Except.error e => setErrorReason agent_name final0 e
          | Except.ok result =>
            let final1 := captureResult agent_name final0 result
            match env.secondSend result with
            | Except.error e => setErrorReason agent_name final1 e
            | Except.ok _ => final1

/-- Fate of one agent's thread in `process_single_row_threaded`: either an
exception escaped the worker before `run_agent_threaded`'s own recovery
(caught at the fan-in boundary, contributing nothing), or the protocol ran
under the given chat environment and handler. -/
inductive AgentTask where
  | escaped : String → AgentTask
  | ran : ChatEnv → Handler → AgentTask

/-- The result record contributed by one `(name, task)` pair, if any. -/
def taskRecord (user_query : JValue) (p : String × AgentTask) : Option Dict :=
  match p.2 with
  | AgentTask.escaped _ => none
  | AgentTask.ran env h => some (run_agent_threaded p.1 env h user_query)

/-- The records collected at the `as_completed` fan-in, in completion order
(the order of the `agents` list). -/
def agentRecords (user_query : JValue) (agents : List (String × AgentTask)) :
    List Dict :=
  agents.filterMap (taskRecord user_query)

/-- Lines 170-188: `results_to_merge = {}` then `results_to_merge.update(data)`
per completed future. -/
def mergeRecords (records : List Dict) : Dict :=
  records.foldl dictUpdate []

/-- `process_single_row_threaded` (lines 164-195): fan out, collect, then
`combined = row.copy(); combined.update(results_to_merge)`. The `agents`
list order is the nondeterministic completion order. -/
def process_single_row_threaded (row : Dict)
    (agents : List (String × AgentTask)) : Dict :=
  let answer_text := pyGet row "Answer"
  let records := agentRecords answer_text agents
  dictUpdate row (mergeRecords records)

/-- Outcome of `pd.read_csv`: rows, or an exception. -/
inductive CsvLoad where
  | loaded : List Dict → CsvLoad
  | readError : String → CsvLoad

/-- Lines 202-205: the dummy dataframe substituted when reading raises. -/
def dummyRows : List Dict :=
  [[("id", JValue.num 101), ("Answer", JValue.str "The sun is cold and blue.")],
   [("id", JValue.num 102),
    ("Answer", JValue.str "I understand this is difficult. The treatment is effective.")]]

/-- Lines 197-205: `try: df = pd.read_csv(...) except: df = dummy`. -/
def loadRows : CsvLoad → List Dict
  | CsvLoad.loaded rows => rows
  | CsvLoad.readError _ => dummyRows

/-- Line 207-211: the three statically configured criteria names. -/
def agentNames : List String := ["Accuracy", "Completeness", "Empathy"]

/-- `run_parallel_system_threaded` (lines 197-231): load (or substitute dummy)
rows, synthesize a missing `id` from the row position, and process every row.
`beh` gives each (row index, agent name) its thread's fate; per-row completion
order is taken as configuration order (one possible schedule — no claim about
the driver depends on the order). -/
def run_parallel_system_threaded (load : CsvLoad)
    (beh : Nat → String → AgentTask) : List Dict :=
  let df := loadRows load
  df.enum.map (fun p =>
    let row0 := p.2
    let row1 :=
      if (dictGet row0 "id").isSome then row0
      else dictSet row0 "id" (JValue.num (Int.ofNat p.1))
    process_single_row_threaded row1
      (agentNames.map (fun n => (n, beh p.1 n))))

/-- The names of the scheduled agents, in completion order. -/
def namesOf (agents : List (String × AgentTask)) : List String :=
  agents.map Prod.fst

/-! ### Concrete sample behaviours used in counterexamples and witnesses -/

/-- A judgment-service behaviour whose reply parses to a full well-shaped
verdict with score 1. -/
def svcScore1 : JudgeSvc := fun _ _ _ => Except.ok (JValue.obj
  [("score", JValue.num 1), ("explanation", JValue.str "looks good"),
   ("graph_nodes", JValue.arr []), ("graph_edges", JValue.arr [])])

/-- A service behaviour whose reply parses to score 2 (a shape the service
may produce and the code forwards unvalidated). -/
def svcScore2 : JudgeSvc := fun _ _ _ => Except.ok (JValue.obj
  [("score", JValue.num 2), ("explanation", JValue.str "eh"),
   ("graph_nodes", JValue.arr []), ("graph_edges", JValue.arr [])])

/-- A service behaviour whose reply parses to a JSON array (valid JSON, not
an object). -/
def svcArr : JudgeSvc := fun _ _ _ => Except.ok (JValue.arr [])

/-- A service call that raises. -/
def svcRaise : JudgeSvc := fun _ _ _ => Except.error "timeout"

/-- A tool call that supplies the text_content argument. -/
def tcText : ToolCall := ⟨"check_accuracy", [("text_content", JValue.str "t")]⟩

/-- A tool call with no arguments. -/
def tcEmpty : ToolCall := ⟨"check_accuracy", []⟩

/-- Chat environment: forced send succeeds with a function call, follow-up
send succeeds. -/
def envCall : ChatEnv := ⟨Except.ok [⟨[⟨some tcText⟩]⟩], fun _ => Except.ok ()⟩

/-- Chat environment: forced send succeeds with a function call, follow-up
send raises. -/
def envCallBadFollowup : ChatEnv :=
  ⟨Except.ok [⟨[⟨some tcText⟩]⟩], fun _ => Except.error "boom"⟩

/-- Chat environment whose first send raises. -/
def envRaise : ChatEnv := ⟨Except.error "ConnectionError", fun _ => Except.ok ()⟩

/-- The record `handle_tool_call` yields under `svcScore1`. -/
def resultScore1 : JValue := JValue.obj
  [("status", JValue.str "success"),
   ("judgment_score", JValue.num 1),
   ("judgment_reason", JValue.str "looks good"),
   ("graph_nodes", JValue.arr []),
   ("graph_edges", JValue.arr [])]

/-! ### Dictionary lemmas -/

/-- The key list of a dict, in order. -/
def keys : Dict → List String
  | [] => []
  | p :: rest => p.1 :: keys rest

/-- All values stored under key `k`, in order (a well-formed dict has at most
one). -/
def occ (d : Dict) (k : String) : List JValue :=
  d.filterMap (fun p => if p.1 = k then some p.2 else none)

/-- Left-biased choice on options. -/
def firstSome (a b : Option JValue) : Option JValue :=
  match a with
  | some v => some v
  | none => b

theorem firstSome_none (b : Option JValue) : firstSome none b = b := rfl

theorem firstSome_assoc (a b c : Option JValue) :
    firstSome (firstSome a b) c = firstSome a (firstSome b c) := by
  cases a <;> rfl

theorem dictGet_dictSet (d : Dict) (k k2 : String) (v : JValue) :
    dictGet (dictSet d k v) k2 = if k2 = k then some v else dictGet d k2 := by
  induction d with
  | nil => simp [dictSet, dictGet]
  | cons p rest ih =>
    obtain ⟨k0, v0⟩ := p
    by_cases h0 : k0 = k
    · subst h0
      by_cases h2 : k2 = k0 <;> simp [dictSet, dictGet, h2]
    · by_cases h2 : k2 = k0
      · have hne : ¬ (k2 = k) := fun hk => h0 (h2.symm.trans hk)
        simp [dictSet, dictGet, h0, h2, hne]
      · simp [dictSet, dictGet, h0, h2, ih]

theorem occ_cons (p : String × JValue) (rest : Dict) (k : String) :
    occ (p :: rest) k =
      if p.1 = k then p.2 :: occ rest k else occ rest k := by
  by_cases h : p.1 = k <;> simp [occ, List.filterMap_cons, h]

theorem dictGet_eq_head_occ (d : Dict) (k : String) :
    dictGet d k = (occ d k).head? := by
  induction d with
  | nil => simp [occ, dictGet]
  | cons p rest ih =>
    obtain ⟨k0, v0⟩ := p
    by_cases h : k0 = k
    · subst h
      simp [dictGet, occ_cons]
    · have h2 : ¬ (k = k0) := fun hk => h hk.symm
      simp [dictGet, occ_cons, h, h2, ih]

theorem occ_eq_nil_of_not_mem (d : Dict) (k : String) (h : k ∉ keys d) :
    occ d k = [] := by
  induction d with
  | nil => simp [occ]
  | cons p rest ih =>
    have h1 : p.1 ≠ k := fun he => h (by simp [keys, he])
    have h2 : k ∉ keys rest := fun hm => h (by simp [keys]; exact Or.inr hm)
    simp [occ_cons, h1, ih h2]

theorem occ_ne_nil_of_mem (d : Dict) (k : String) (h : k ∈ keys d) :
    occ d k ≠ [] := by
  induction d with
  | nil => simp [keys] at h
  | cons p rest ih =>
    by_cases h1 : p.1 = k
    · simp [occ_cons, h1]
    · have h2 : k ∈ keys rest := by
        simp [keys] at h
        rcases h with h | h
        · exact absurd h.symm h1
        · exact h
      simp [occ_cons, h1]
      exact ih h2

theorem keys_dictSet (d : Dict) (k : String) (v : JValue) :
    keys (dictSet d k v) = if k ∈ keys d then keys d else keys d ++ [k] := by
  induction d with
  | nil => simp [dictSet, keys]
  | cons p rest ih =>
    obtain ⟨k0, v0⟩ := p
    by_cases h0 : k0 = k
    · subst h0
      simp [dictSet, keys]
    · have hne : ¬ (k = k0) := fun hk => h0 hk.symm
      have hset : dictSet ((k0, v0) :: rest) k v = (k0, v0) :: dictSet rest k v := by
        simp [dictSet, h0]
      rw [hset]
      show k0 :: keys (dictSet rest k v) = _
      by_cases hm : k ∈ keys rest
      · have hm2 : k ∈ keys ((k0, v0) :: rest) := by
          simp [keys]
          exact Or.inr hm
        rw [if_pos hm2, ih, if_pos hm]
        rfl
      · have hm2 : k ∉ keys ((k0, v0) :: rest) := by
          simp [keys]
          exact ⟨hne, hm⟩
        rw [if_neg hm2, ih, if_neg hm]
        rfl

theorem keys_dictSet_of_mem (d : Dict) (k : String) (v : JValue)
    (h : k ∈ keys d) : keys (dictSet d k v) = keys d := by
  simp [keys_dictSet, h]

theorem nodup_keys_dictSet (d : Dict) (k : String) (v : JValue)
    (h : (keys d).Nodup) : (keys (dictSet d k v)).Nodup := by
  rw [keys_dictSet]
  by_cases hm : k ∈ keys d
  · simpa [hm] using h
  · simp only [hm, if_false]
    simpa [List.nodup_append] using ⟨h, hm⟩

theorem occ_length_le_one (d : Dict) (k : String) (h : (keys d).Nodup) :
    (occ d k).length ≤ 1 := by
  induction d with
  | nil => simp [occ]
  | cons p rest ih =>
    have h2 := List.nodup_cons.mp (show (p.1 :: keys rest).Nodup from h)
    by_cases h1 : p.1 = k
    · have hnm : k ∉ keys rest := h1 ▸ h2.1
      simp [occ_cons, h1, occ_eq_nil_of_not_mem rest k hnm]
    · simpa [occ_cons, h1] using ih h2.2

theorem getLast?_eq_head?_of_len_le_one (l : List JValue)
    (h : l.length ≤ 1) : l.getLast? = l.head? := by
  match l with
  | [] => rfl
  | [a] => rfl
  | a :: b :: t => simp at h

theorem getLast?_cons_firstSome (a : JValue) (l : List JValue) :
    (a :: l).getLast? = firstSome l.getLast? (some a) := by
  cases l with
  | nil => rfl
  | cons b t =>
    have hne : (b :: t) ≠ ([] : List JValue) := by simp
    have hs : (b :: t).getLast?.isSome := List.getLast?_isSome.mpr hne
    obtain ⟨w, hw⟩ := Option.isSome_iff_exists.mp hs
    rw [List.getLast?_cons_cons, hw]
    rfl

theorem getLast?_append_firstSome (x y : List JValue) :
    (x ++ y).getLast? = firstSome y.getLast? x.getLast? := by
  cases y with
  | nil => simp [firstSome]
  | cons b t =>
    have hne : (b :: t) ≠ ([] : List JValue) := by simp
    have hs : (b :: t).getLast?.isSome := List.getLast?_isSome.mpr hne
    obtain ⟨w, hw⟩ := Option.isSome_iff_exists.mp hs
    rw [List.getLast?_append_of_ne_nil x hne, hw]
    rfl

theorem dictGet_dictUpdate (kvs : Dict) (d : Dict) (k : String) :
    dictGet (dictUpdate d kvs) k =
      firstSome (occ kvs k).getLast? (dictGet d k) := by
  induction kvs generalizing d with
  | nil => simp [dictUpdate, occ, firstSome]
  | cons p rest ih =>
    have hstep : dictUpdate d (p :: rest) = dictUpdate (dictSet d p.1 p.2) rest := by
      simp [dictUpdate]
    rw [hstep, ih]
    by_cases h1 : p.1 = k
    · rw [occ_cons, if_pos h1, getLast?_cons_firstSome, firstSome_assoc]
      have : dictGet (dictSet d p.1 p.2) k = some p.2 := by
        rw [dictGet_dictSet, if_pos h1.symm]
      rw [this]
      rfl
    · have h2 : ¬ (k = p.1) := fun hk => h1 hk.symm
      rw [occ_cons, if_neg h1, dictGet_dictSet, if_neg h2]

theorem dictGet_foldl_dictUpdate (records : List Dict) (d : Dict) (k : String) :
    dictGet (records.foldl dictUpdate d) k =
      firstSome (occ records.flatten k).getLast? (dictGet d k) := by
  induction records generalizing d with
  | nil => simp [occ, firstSome]
  | cons r rest ih =>
    have hocc : occ ((r :: rest).flatten) k = occ r k ++ occ rest.flatten k := by
      simp [occ, List.flatten_cons, List.filterMap_append]
    rw [List.foldl_cons, ih, hocc, getLast?_append_firstSome, firstSome_assoc,
      dictGet_dictUpdate]

theorem nodup_keys_dictUpdate (d : Dict) (kvs : Dict)
    (h : (keys d).Nodup) : (keys (dictUpdate d kvs)).Nodup := by
  induction kvs generalizing d with
  | nil => simpa [dictUpdate] using h
  | cons p rest ih =>
    have hstep : dictUpdate d (p :: rest) = dictUpdate (dictSet d p.1 p.2) rest := by
      simp [dictUpdate]
    rw [hstep]
    exact ih _ (nodup_keys_dictSet d p.1 p.2 h)

theorem nodup_keys_mergeRecords (records : List Dict) :
    (keys (mergeRecords records)).Nodup := by
  have haux : ∀ (rs : List Dict) (d : Dict), (keys d).Nodup →
      (keys (rs.foldl dictUpdate d)).Nodup := by
    intro rs
    induction rs with
    | nil => intro d hd; simpa using hd
    | cons r rest ih =>
      intro d hd
      rw [List.foldl_cons]
      exact ih _ (nodup_keys_dictUpdate d r hd)
  exact haux records [] (by simp [keys])

/-- Master characterization of the enriched row: a field is the last record
value written for that key during fan-in, falling back to the input row. -/
theorem dictGet_process (row : Dict) (agents : List (String × AgentTask))
    (k : String) :
    dictGet (process_single_row_threaded row agents) k =
      firstSome
        (occ (agentRecords (pyGet row "Answer") agents).flatten k).getLast?
        (dictGet row k) := by
  unfold process_single_row_threaded
  rw [dictGet_dictUpdate]
  have hnd := nodup_keys_mergeRecords (agentRecords (pyGet row "Answer") agents)
  have hlen := occ_length_le_one _ k hnd
  rw [getLast?_eq_head?_of_len_le_one _ hlen, ← dictGet_eq_head_occ]
  rw [show dictGet (mergeRecords (agentRecords (pyGet row "Answer") agents)) k =
      firstSome (occ (agentRecords (pyGet row "Answer") agents).flatten k).getLast?
        (dictGet [] k) from dictGet_foldl_dictUpdate _ _ _]
  cases (occ (agentRecords (pyGet row "Answer") agents).flatten k).getLast? <;>
    simp [firstSome, dictGet]

/-! ### Field-name lemmas: the three per-agent keys never collide -/

theorem append_suffix_ne (n1 n2 s t : String) (hs : s.data ≠ []) (ht : t.data ≠ [])
    (hlast : s.data.getLast? ≠ t.data.getLast?) : n1 ++ s ≠ n2 ++ t := by
  intro h
  have hd : n1.data ++ s.data = n2.data ++ t.data := by
    have h2 := congrArg String.data h
    simpa using h2
  have h1 : (n1.data ++ s.data).getLast? = s.data.getLast? :=
    List.getLast?_append_of_ne_nil _ hs
  have h2 : (n2.data ++ t.data).getLast? = t.data.getLast? :=
    List.getLast?_append_of_ne_nil _ ht
  exact hlast ((h1.symm.trans (by rw [hd])).trans h2)

theorem append_suffix_cancel (n1 n2 s : String) (h : n1 ++ s = n2 ++ s) :
    n1 = n2 := by
  have hd : n1.data ++ s.data = n2.data ++ s.data := by
    have h2 := congrArg String.data h
    simpa using h2
  exact String.ext (List.append_cancel_right hd)

theorem grade_ne_reason (n1 n2 : String) : n1 ++ "_grade" ≠ n2 ++ "_reason" :=
  append_suffix_ne n1 n2 _ _ (by decide) (by decide) (by decide)

theorem grade_ne_graph (n1 n2 : String) : n1 ++ "_grade" ≠ n2 ++ "_graph" :=
  append_suffix_ne n1 n2 _ _ (by decide) (by decide) (by decide)

theorem reason_ne_graph (n1 n2 : String) : n1 ++ "_reason" ≠ n2 ++ "_graph" :=
  append_suffix_ne n1 n2 _ _ (by decide) (by decide) (by decide)

theorem agentKeys_nodup (n : String) : (agentKeys n).Nodup := by
  apply List.nodup_cons.mpr
  constructor
  · intro hmem
    rcases List.mem_cons.mp hmem with h | h
    · exact grade_ne_reason n n h
    · rw [List.mem_singleton] at h
      exact grade_ne_graph n n h
  · apply List.nodup_cons.mpr
    constructor
    · intro hmem
      rw [List.mem_singleton] at hmem
      exact reason_ne_graph n n hmem
    · exact List.nodup_singleton _

theorem agentKeys_disjoint (n1 n2 : String) (h : n1 ≠ n2) (k : String)
    (h1 : k ∈ agentKeys n1) : k ∉ agentKeys n2 := by
  intro h2
  simp only [agentKeys, List.mem_cons, List.mem_singleton,
    List.not_mem_nil, or_false] at h1 h2
  rcases h1 with h1 | h1 | h1 <;> rcases h2 with h2 | h2 | h2 <;>
    first
      | exact h (append_suffix_cancel n1 n2 _ (h1.symm.trans h2))
      | exact append_suffix_ne n1 n2 _ _ (by decide) (by decide) (by decide)
          (h1.symm.trans h2)

/-! ### Record lemmas: shape and keys of every `run_agent_threaded` result -/

theorem keys_defaultRecord (n : String) : keys (defaultRecord n) = agentKeys n := rfl

theorem keys_dictSet_agent (n k : String) (hk : k ∈ agentKeys n) (d : Dict)
    (v : JValue) (h : keys d = agentKeys n) :
    keys (dictSet d k v) = agentKeys n := by
  rw [keys_dictSet, h, if_pos hk]

theorem keys_setErrorReason (n : String) (d : Dict) (e : String)
    (h : keys d = agentKeys n) : keys (setErrorReason n d e) = agentKeys n :=
  keys_dictSet_agent n _ (by simp [agentKeys]) d _ h

theorem keys_captureResult (n : String) (d : Dict) (r : JValue)
    (h : keys d = agentKeys n) : keys (captureResult n d r) = agentKeys n := by
  cases r with
  | obj fields =>
      exact keys_dictSet_agent n _ (by simp [agentKeys]) _ _
        (keys_dictSet_agent n _ (by simp [agentKeys]) _ _
          (keys_dictSet_agent n _ (by simp [agentKeys]) _ _ h))
  | null => exact h
  | bool b => exact h
  | num m => exact h
  | str s => exact h
  | arr xs => exact h

theorem run_keys (n : String) (env : ChatEnv) (hdl : Handler) (q : JValue) :
    keys (run_agent_threaded n env hdl q) = agentKeys n := by
  unfold run_agent_threaded
  split
  · exact keys_setErrorReason n (defaultRecord n) _ (keys_defaultRecord n)
  · split
    · exact keys_defaultRecord n
    · split
      · exact keys_defaultRecord n
      · split
        · exact keys_defaultRecord n
        · split
          · exact keys_setErrorReason n (defaultRecord n) _ (keys_defaultRecord n)
          · split
            · exact keys_setErrorReason n _ _
                (keys_captureResult n (defaultRecord n) _ (keys_defaultRecord n))
            · exact keys_captureResult n (defaultRecord n) _ (keys_defaultRecord n)

theorem dictGet_setErrorReason (n : String) (d : Dict) (e : String) (k : String) :
    dictGet (setErrorReason n d e) k =
      if k = n ++ "_reason" then some (JValue.str ("Error: " ++ e))
      else dictGet d k :=
  dictGet_dictSet d _ k _

theorem dictGet_captureResult_obj (n : String) (d : Dict) (fields : Dict)
    (k : String) :
    dictGet (captureResult n d (JValue.obj fields)) k =
      if k = n ++ "_graph" then
        some (JValue.str (dumps (JValue.obj
          [("nodes", pyGet fields "graph_nodes"),
           ("edges", pyGet fields "graph_edges")])))
      else if k = n ++ "_reason" then
        some (pyGetD fields "judgment_reason" (JValue.str ""))
      else if k = n ++ "_grade" then
        some (pyGetD fields "judgment_score" (JValue.num 0))
      else dictGet d k := by
  show dictGet (dictSet (dictSet (dictSet d _ _) _ _) _ _) k = _
  rw [dictGet_dictSet, dictGet_dictSet, dictGet_dictSet]

/-! ### Orchestrator lemmas -/

theorem agentRecords_cons_escaped (q : JValue) (n msg : String)
    (rest : List (String × AgentTask)) :
    agentRecords q ((n, AgentTask.escaped msg) :: rest) = agentRecords q rest := by
  simp [agentRecords, List.filterMap_cons, taskRecord]

theorem agentRecords_cons_ran (q : JValue) (n : String) (env : ChatEnv)
    (hdl : Handler) (rest : List (String × AgentTask)) :
    agentRecords q ((n, AgentTask.ran env hdl) :: rest)
      = run_agent_threaded n env hdl q :: agentRecords q rest := by
  simp [agentRecords, List.filterMap_cons, taskRecord]

theorem occ_flatten_cons (r : Dict) (rs : List Dict) (k : String) :
    occ ((r :: rs).flatten) k = occ r k ++ occ rs.flatten k := by
  simp [occ, List.flatten_cons, List.filterMap_append]

theorem occ_records_nil (q : JValue) (agents : List (String × AgentTask))
    (k : String) (h : ∀ n task, (n, task) ∈ agents → k ∉ agentKeys n) :
    occ (agentRecords q agents).flatten k = [] := by
  induction agents with
  | nil => simp [agentRecords, occ]
  | cons p rest ih =>
    obtain ⟨n, task⟩ := p
    have hrest : ∀ m t2, (m, t2) ∈ rest → k ∉ agentKeys m :=
      fun m t2 hm => h m t2 (List.mem_cons_of_mem _ hm)
    cases task with
    | escaped msg =>
        rw [agentRecords_cons_escaped]
        exact ih hrest
    | ran env hdl =>
        rw [agentRecords_cons_ran, occ_flatten_cons]
        have hk : k ∉ keys (run_agent_threaded n env hdl q) := by
          rw [run_keys]
          exact h n _ (List.mem_cons_self _ _)
        rw [occ_eq_nil_of_not_mem _ _ hk, List.nil_append]
        exact ih hrest

theorem occ_run_length_le_one (n : String) (env : ChatEnv) (hdl : Handler)
    (q : JValue) (k : String) :
    (occ (run_agent_threaded n env hdl q) k).length ≤ 1 :=
  occ_length_le_one _ k (by rw [run_keys]; exact agentKeys_nodup n)

theorem occ_flat_length_le_one (q : JValue) (agents : List (String × AgentTask))
    (k : String) (hnd : (namesOf agents).Nodup) :
    (occ (agentRecords q agents).flatten k).length ≤ 1 := by
  induction agents with
  | nil => simp [agentRecords, occ]
  | cons p rest ih =>
    obtain ⟨n, task⟩ := p
    have hnd2 := List.nodup_cons.mp (show (n :: namesOf rest).Nodup from hnd)
    cases task with
    | escaped msg =>
        rw [agentRecords_cons_escaped]
        exact ih hnd2.2
    | ran env hdl =>
        rw [agentRecords_cons_ran, occ_flatten_cons]
        by_cases hk : k ∈ agentKeys n
        · have hnil : occ (agentRecords q rest).flatten k = [] := by
            apply occ_records_nil
            intro m t2 hm
            have hmn : m ≠ n := by
              intro he
              exact hnd2.1 (he ▸ (List.mem_map_of_mem Prod.fst hm : m ∈ namesOf rest))
            exact agentKeys_disjoint n m (fun he => hmn he.symm) k hk
          rw [hnil, List.append_nil]
          exact occ_run_length_le_one n env hdl q k
        · rw [occ_eq_nil_of_not_mem _ _ (by rw [run_keys]; exact hk),
            List.nil_append]
          exact ih hnd2.2

theorem occ_flatten_ne_nil_of_mem_rec (records : List Dict) (rec : Dict)
    (k : String) (hmem : rec ∈ records) (hk : occ rec k ≠ []) :
    occ records.flatten k ≠ [] := by
  induction hmem with
  | head rest =>
      rw [occ_flatten_cons]
      intro happ
      exact hk (List.append_eq_nil.mp happ).1
  | tail b hmem2 ih =>
      rw [occ_flatten_cons]
      intro happ
      exact ih (List.append_eq_nil.mp happ).2

theorem run_record_mem (q : JValue) (agents : List (String × AgentTask))
    (n : String) (env : ChatEnv) (hdl : Handler)
    (hmem : (n, AgentTask.ran env hdl) ∈ agents) :
    run_agent_threaded n env hdl q ∈ agentRecords q agents :=
  List.mem_filterMap.mpr ⟨(n, AgentTask.ran env hdl), hmem, rfl⟩

theorem occ_flat_eq_single (q : JValue) (agents : List (String × AgentTask))
    (n : String) (env : ChatEnv) (hdl : Handler) (k : String)
    (hmem : (n, AgentTask.ran env hdl) ∈ agents)
    (hnd : (namesOf agents).Nodup) (hk : k ∈ agentKeys n) :
    occ (agentRecords q agents).flatten k
      = occ (run_agent_threaded n env hdl q) k := by
  induction agents with
  | nil => cases hmem
  | cons p rest ih =>
    obtain ⟨m, task⟩ := p
    have hnd2 := List.nodup_cons.mp (show (m :: namesOf rest).Nodup from hnd)
    rcases List.mem_cons.mp hmem with he | hm
    · have h1 : n = m := congrArg Prod.fst he
      have h2 : AgentTask.ran env hdl = task := congrArg Prod.snd he
      subst h1
      subst h2
      rw [agentRecords_cons_ran, occ_flatten_cons]
      have hnil : occ (agentRecords q rest).flatten k = [] := by
        apply occ_records_nil
        intro m2 t2 hm2
        have hmn : m2 ≠ n := by
          intro he2
          exact hnd2.1 (he2 ▸ (List.mem_map_of_mem Prod.fst hm2 : m2 ∈ namesOf rest))
        exact agentKeys_disjoint n m2 (fun he2 => hmn he2.symm) k hk
      rw [hnil, List.append_nil]
    · have hmn : m ≠ n := by
        intro he2
        have : n ∈ namesOf rest := List.mem_map_of_mem Prod.fst hm
        exact hnd2.1 (he2 ▸ this)
      cases task with
      | escaped msg =>
          rw [agentRecords_cons_escaped]
          exact ih hm hnd2.2
      | ran env2 hdl2 =>
          rw [agentRecords_cons_ran, occ_flatten_cons]
          have hknot : k ∉ agentKeys m := agentKeys_disjoint n m (fun he2 => hmn he2.symm) k hk
          rw [occ_eq_nil_of_not_mem _ _ (by rw [run_keys]; exact hknot),
            List.nil_append]
          exact ih hm hnd2.2

/-- With pairwise distinct agent names, the enriched row's value at one of
agent `n`'s three keys is exactly `n`'s own record value there. -/
theorem dictGet_process_of_uniq (row : Dict) (agents : List (String × AgentTask))
    (n : String) (env : ChatEnv) (hdl : Handler) (k : String)
    (hmem : (n, AgentTask.ran env hdl) ∈ agents)
    (hnd : (namesOf agents).Nodup) (hk : k ∈ agentKeys n) :
    dictGet (process_single_row_threaded row agents) k =
      dictGet (run_agent_threaded n env hdl (pyGet row "Answer")) k := by
  rw [dictGet_process, occ_flat_eq_single (pyGet row "Answer") agents n env hdl k hmem hnd hk]
  rw [getLast?_eq_head?_of_len_le_one _ (occ_run_length_le_one n env hdl _ k),
    ← dictGet_eq_head_occ]
  have hsome : (dictGet (run_agent_threaded n env hdl (pyGet row "Answer")) k).isSome := by
    rw [dictGet_eq_head_occ]
    have hne := occ_ne_nil_of_mem (run_agent_threaded n env hdl (pyGet row "Answer")) k
      (by rw [run_keys]; exact hk)
    cases hocc : occ (run_agent_threaded n env hdl (pyGet row "Answer")) k with
    | nil => exact absurd hocc hne
    | cons a l => rfl
  obtain ⟨v, hv⟩ := Option.isSome_iff_exists.mp hsome
  rw [hv]
  rfl

/-! ### Further shared helper lemmas -/

/-- Inverting a successful callback: the service reply parsed to a dict and
the returned record is the five-field structure built from it. -/
theorem handle_tool_call_ok_inv (svc : JudgeSvc) (n d : String) (tc : ToolCall)
    (ctx : JValue) (result : JValue)
    (h : handle_tool_call svc n d tc ctx = Except.ok result) :
    ∃ fields : Dict,
      run_judgment_llm svc n d (toolArgText tc ctx) = JValue.obj fields ∧
      result = JValue.obj
        [("status", JValue.str "success"),
         ("judgment_score", pyGet fields "score"),
         ("judgment_reason", pyGet fields "explanation"),
         ("graph_nodes", pyGetD fields "graph_nodes" (JValue.arr [])),
         ("graph_edges", pyGetD fields "graph_edges" (JValue.arr []))] := by
  unfold handle_tool_call at h
  cases hr : run_judgment_llm svc n d (toolArgText tc ctx) with
  | obj fields =>
      rw [hr] at h
      exact ⟨fields, rfl, (Except.ok.inj h).symm⟩
  | null => rw [hr] at h; cases h
  | bool b => rw [hr] at h; cases h
  | num m => rw [hr] at h; cases h
  | str s => rw [hr] at h; cases h
  | arr xs => rw [hr] at h; cases h

/-- The serialization of any JSON object begins with an opening brace. -/
theorem dumps_obj_head (fs : List (String × JValue)) :
    (dumps (JValue.obj fs)).data.head? = some '\x7b' := by
  simp only [dumps]
  rw [String.data_append, String.data_append]
  rfl

theorem id_not_agentKey (n : String) : "id" ∉ agentKeys n := by
  intro h
  simp only [agentKeys, List.mem_cons, List.mem_singleton,
    List.not_mem_nil, or_false] at h
  rcases h with h | h | h <;>
  · have hl := congrArg String.length h
    rw [String.length_append] at hl
    first
      | (rw [show ("_grade" : String).length = 6 from rfl,
            show ("id" : String).length = 2 from rfl] at hl
         omega)
      | (rw [show ("_reason" : String).length = 7 from rfl,
            show ("id" : String).length = 2 from rfl] at hl
         omega)
      | (rw [show ("_graph" : String).length = 6 from rfl,
            show ("id" : String).length = 2 from rfl] at hl
         omega)

theorem answer_not_agentKey (n : String) : "Answer" ∉ agentKeys n := by
  intro h
  simp only [agentKeys, List.mem_cons, List.mem_singleton,
    List.not_mem_nil, or_false] at h
  rcases h with h | h | h
  · have hd := congrArg String.data h
    rw [String.data_append] at hd
    have hlen := congrArg List.length hd
    rw [List.length_append, show ("_grade" : String).data.length = 6 from rfl,
      show ("Answer" : String).data.length = 6 from rfl] at hlen
    have hnil : n.data = [] := List.length_eq_zero.mp (by omega)
    rw [hnil, List.nil_append] at hd
    exact absurd hd (by decide)
  · have hd := congrArg String.data h
    rw [String.data_append] at hd
    have hlen := congrArg List.length hd
    rw [List.length_append, show ("_reason" : String).data.length = 7 from rfl,
      show ("Answer" : String).data.length = 6 from rfl] at hlen
    omega
  · have hd := congrArg String.data h
    rw [String.data_append] at hd
    have hlen := congrArg List.length hd
    rw [List.length_append, show ("_graph" : String).data.length = 6 from rfl,
      show ("Answer" : String).data.length = 6 from rfl] at hlen
    have hnil : n.data = [] := List.length_eq_zero.mp (by omega)
    rw [hnil, List.nil_append] at hd
    exact absurd hd (by decide)

/-- Any key of a finished-protocol agent is present in the enriched row. -/
theorem process_key_isSome (row : Dict) (agents : List (String × AgentTask))
    (n : String) (env : ChatEnv) (hdl : Handler) (k : String)
    (hmem : (n, AgentTask.ran env hdl) ∈ agents) (hk : k ∈ agentKeys n) :
    (dictGet (process_single_row_threaded row agents) k).isSome := by
  rw [dictGet_process]
  have hrec := run_record_mem (pyGet row "Answer") agents n env hdl hmem
  have hocc : occ (run_agent_threaded n env hdl (pyGet row "Answer")) k ≠ [] :=
    occ_ne_nil_of_mem _ k (by rw [run_keys]; exact hk)
  have hflat := occ_flatten_ne_nil_of_mem_rec _ _ k hrec hocc
  have hs := List.getLast?_isSome.mpr hflat
  obtain ⟨v, hv⟩ := Option.isSome_iff_exists.mp hs
  rw [hv]
  rfl

theorem eq_of_perm_of_len_le_one (l1 l2 : List JValue) (h : l1.Perm l2)
    (hl : l2.length ≤ 1) : l1 = l2 := by
  match l2, hl with
  | [], _ => exact List.perm_nil.mp h
  | [a], _ => exact List.perm_singleton.mp h
  | a :: b :: t, hl => simp at hl

/-- The captured grade is 0 or 1 whenever the service only ever parses to
dicts whose score field is 0 or 1. -/
theorem captured_grade_conform (n d : String) (svc : JudgeSvc) (fc : ToolCall)
    (q : JValue) (result : JValue)
    (hsvc : ∀ (content : JValue) (fields : Dict),
        svc n d content = Except.ok (JValue.obj fields) →
        pyGet fields "score" = JValue.num 0 ∨ pyGet fields "score" = JValue.num 1)
    (heq : handle_tool_call svc n d fc q = Except.ok result) :
    dictGet (captureResult n (defaultRecord n) result) (n ++ "_grade")
        = some (JValue.num 0) ∨
    dictGet (captureResult n (defaultRecord n) result) (n ++ "_grade")
        = some (JValue.num 1) := by
  obtain ⟨fields, hr, hres⟩ := handle_tool_call_ok_inv svc n d fc q result heq
  subst hres
  rw [dictGet_captureResult_obj, if_neg (grade_ne_graph n n),
    if_neg (grade_ne_reason n n), if_pos rfl]
  have hpy : pyGetD
      [("status", JValue.str "success"),
       ("judgment_score", pyGet fields "score"),
       ("judgment_reason", pyGet fields "explanation"),
       ("graph_nodes", pyGetD fields "graph_nodes" (JValue.arr [])),
       ("graph_edges", pyGetD fields "graph_edges" (JValue.arr []))]
      "judgment_score" (JValue.num 0) = pyGet fields "score" := rfl
  rw [hpy]
  unfold run_judgment_llm at hr
  cases hsv : svc n d (toolArgText fc q) with
  | ok v =>
      rw [hsv] at hr
      have hv : v = JValue.obj fields := hr
      rcases hsvc (toolArgText fc q) fields (hv ▸ hsv) with h0 | h1
      · exact Or.inl (by rw [h0])
      · exact Or.inr (by rw [h1])
  | error e2 =>
      rw [hsv] at hr
      have hfe : fields =
          [("score", JValue.num 0),
           ("explanation", JValue.str ("Judge crashed: " ++ e2)),
           ("graph_nodes", JValue.arr []),
           ("graph_edges", JValue.arr [])] := (JValue.obj.inj hr).symm
      subst hfe
      exact Or.inl rfl

/-! Branch equations of the protocol, all definitional. -/

theorem run_agent_eq_firstErr (n e : String)
    (second : JValue → Except String Unit) (hdl : Handler) (q : JValue) :
    run_agent_threaded n ⟨Except.error e, second⟩ hdl q
      = setErrorReason n (defaultRecord n) e := rfl

theorem run_agent_eq_noCand (n : String) (second : JValue → Except String Unit)
    (hdl : Handler) (q : JValue) :
    run_agent_threaded n ⟨Except.ok [], second⟩ hdl q = defaultRecord n := rfl

theorem run_agent_eq_noParts (n : String) (crest : List Candidate)
    (second : JValue → Except String Unit) (hdl : Handler) (q : JValue) :
    run_agent_threaded n ⟨Except.ok (⟨[]⟩ :: crest), second⟩ hdl q
      = defaultRecord n := rfl

theorem run_agent_eq_noCall (n : String) (prest : List Part)
    (crest : List Candidate) (second : JValue → Except String Unit)
    (hdl : Handler) (q : JValue) :
    run_agent_threaded n ⟨Except.ok (⟨⟨none⟩ :: prest⟩ :: crest), second⟩ hdl q
      = defaultRecord n := rfl

theorem run_agent_eq_call (n : String) (fc : ToolCall) (prest : List Part)
    (crest : List Candidate) (second : JValue → Except String Unit)
    (hdl : Handler) (q : JValue) :
    run_agent_threaded n ⟨Except.ok (⟨⟨some fc⟩ :: prest⟩ :: crest), second⟩ hdl q
      = match hdl fc q with
        | Except.error e => setErrorReason n (defaultRecord n) e
        | Except.ok result =>
          match second result with
          | Except.error e =>
              setErrorReason n (captureResult n (defaultRecord n) result) e
          | Except.ok _ => captureResult n (defaultRecord n) result := rfl

/-- Grade across every protocol branch, for a conforming service. -/
theorem run_grade_conform (n d : String) (svc : JudgeSvc) (env : ChatEnv)
    (q : JValue)
    (hsvc : ∀ (content : JValue) (fields : Dict),
        svc n d content = Except.ok (JValue.obj fields) →
        pyGet fields "score" = JValue.num 0 ∨ pyGet fields "score" = JValue.num 1) :
    dictGet (run_agent_threaded n env (handle_tool_call svc n d) q) (n ++ "_grade")
        = some (JValue.num 0) ∨
    dictGet (run_agent_threaded n env (handle_tool_call svc n d) q) (n ++ "_grade")
        = some (JValue.num 1) := by
  have hdef : dictGet (defaultRecord n) (n ++ "_grade") = some (JValue.num 0) := by
    simp [defaultRecord, dictGet]
  have hset : ∀ (dd : Dict) (e : String),
      dictGet (setErrorReason n dd e) (n ++ "_grade") = dictGet dd (n ++ "_grade") := by
    intro dd e
    rw [dictGet_setErrorReason, if_neg (grade_ne_reason n n)]
  obtain ⟨first, second⟩ := env
  cases first with
  | error e =>
      rw [run_agent_eq_firstErr, hset]
      exact Or.inl hdef
  | ok candidates =>
    cases candidates with
    | nil =>
        rw [run_agent_eq_noCand]
        exact Or.inl hdef
    | cons c crest =>
      obtain ⟨parts⟩ := c
      cases parts with
      | nil =>
          rw [run_agent_eq_noParts]
          exact Or.inl hdef
      | cons part prest =>
        obtain ⟨ofc⟩ := part
        cases ofc with
        | none =>
            rw [run_agent_eq_noCall]
            exact Or.inl hdef
        | some fc =>
          rw [run_agent_eq_call]
          cases heq : handle_tool_call svc n d fc q with
          | error e =>
              dsimp only
              rw [hset]
              exact Or.inl hdef
          | ok result =>
            dsimp only
            cases heq2 : second result with
            | error e =>
                dsimp only
                rw [hset]
                exact captured_grade_conform n d svc fc q result hsvc heq
            | ok u =>
                dsimp only
                exact captured_grade_conform n d svc fc q result hsvc heq

/-! ### The claims -/

/-- C1: the spec claims every returned record's graph field is a valid JSON
string whose top-level value is an object with exactly the keys nodes and
edges, on every path including failures. On the failure paths the code
returns the string "[]": a run whose first forced send raises keeps the
pre-populated default, "[]" is the serialization of the empty JSON array,
and no JSON object serializes to it (every object serialization starts with
an opening brace while "[]" starts with a bracket). -/
theorem C1_failure_graph_is_array :
    dictGet (run_agent_threaded "Accuracy" envRaise
        (handle_tool_call svcScore1 "Accuracy" "desc") (JValue.str "x"))
      ("Accuracy" ++ "_graph") = some (JValue.str "[]") ∧
    "[]" = dumps (JValue.arr []) ∧
    (∀ fs : List (String × JValue), (dumps (JValue.obj fs)).data.head? = some '\x7b') ∧
    ("[]" : String).data.head? = some '[' := by
  refine ⟨rfl, ?_, dumps_obj_head, rfl⟩
  simp only [dumps]
  rfl

/-- C2 counterexample: when the follow-up send fails after the callback's
result was captured, the returned record's reason field is "Error: boom",
not the captured reason "looks good" — so not all three captured fields
survive, contradicting the claim. -/
theorem C2_claim_false :
    dictGet (run_agent_threaded "Accuracy" envCallBadFollowup
        (handle_tool_call svcScore1 "Accuracy" "desc") (JValue.str "q"))
      ("Accuracy" ++ "_reason") = some (JValue.str "Error: boom") ∧
    dictGet (captureResult "Accuracy" (defaultRecord "Accuracy") resultScore1)
      ("Accuracy" ++ "_reason") = some (JValue.str "looks good") ∧
    (("Error: boom" : String) == "looks good") = false :=
  ⟨rfl, rfl, by decide⟩

/-- C2 (amended): a failure while sending the synthetic follow-up message
leaves the captured grade and graph fields unchanged in the returned record,
but overwrites the captured reason field with "Error: " followed by the
cause. -/
theorem C2_followup_failure_effect (n : String) (hdl : Handler) (q : JValue)
    (fc : ToolCall) (prest : List Part) (crest : List Candidate)
    (second : JValue → Except String Unit) (result : JValue) (e : String)
    (hh : hdl fc q = Except.ok result)
    (hs : second result = Except.error e) :
    dictGet (run_agent_threaded n
        ⟨Except.ok (⟨⟨some fc⟩ :: prest⟩ :: crest), second⟩ hdl q) (n ++ "_grade")
      = dictGet (captureResult n (defaultRecord n) result) (n ++ "_grade") ∧
    dictGet (run_agent_threaded n
        ⟨Except.ok (⟨⟨some fc⟩ :: prest⟩ :: crest), second⟩ hdl q) (n ++ "_graph")
      = dictGet (captureResult n (defaultRecord n) result) (n ++ "_graph") ∧
    dictGet (run_agent_threaded n
        ⟨Except.ok (⟨⟨some fc⟩ :: prest⟩ :: crest), second⟩ hdl q) (n ++ "_reason")
      = some (JValue.str ("Error: " ++ e)) := by
  unfold run_agent_threaded
  dsimp only
  rw [hh]
  dsimp only
  rw [hs]
  dsimp only
  refine ⟨?_, ?_, ?_⟩
  · rw [dictGet_setErrorReason, if_neg (grade_ne_reason n n)]
  · rw [dictGet_setErrorReason, if_neg (Ne.symm (reason_ne_graph n n))]
  · rw [dictGet_setErrorReason, if_pos rfl]

/-- C2 witness. -/
theorem C2_witness :
    dictGet (run_agent_threaded "Empathy"
        ⟨Except.ok [⟨[⟨some tcText⟩]⟩], fun _ => Except.error "net down"⟩
        (handle_tool_call svcScore1 "Empathy" "d") (JValue.str "q"))
      ("Empathy" ++ "_grade")
      = dictGet (captureResult "Empathy" (defaultRecord "Empathy") resultScore1)
        ("Empathy" ++ "_grade") ∧
    dictGet (run_agent_threaded "Empathy"
        ⟨Except.ok [⟨[⟨some tcText⟩]⟩], fun _ => Except.error "net down"⟩
        (handle_tool_call svcScore1 "Empathy" "d") (JValue.str "q"))
      ("Empathy" ++ "_graph")
      = dictGet (captureResult "Empathy" (defaultRecord "Empathy") resultScore1)
        ("Empathy" ++ "_graph") ∧
    dictGet (run_agent_threaded "Empathy"
        ⟨Except.ok [⟨[⟨some tcText⟩]⟩], fun _ => Except.error "net down"⟩
        (handle_tool_call svcScore1 "Empathy" "d") (JValue.str "q"))
      ("Empathy" ++ "_reason") = some (JValue.str ("Error: " ++ "net down")) :=
  C2_followup_failure_effect "Empathy" (handle_tool_call svcScore1 "Empathy" "d")
    (JValue.str "q") tcText [] [] (fun _ => Except.error "net down")
    resultScore1 "net down" rfl rfl

/-- C3 counterexample: with an unreadable input dataset the driver does not
halt; it processes the two built-in dummy rows and returns two enriched
rows. -/
theorem C3_claim_false :
    (run_parallel_system_threaded (CsvLoad.readError "No such file: sm_answers.csv")
      (fun _ _ => AgentTask.escaped "worker crashed")).length = 2 := rfl

/-- C3 (amended): a missing or unreadable input dataset does not halt the
batch; the driver substitutes the built-in two-row dummy dataset and
processes it like any other input, and it always emits exactly one output
row per loaded row. -/
theorem C3_missing_csv_uses_dummy (load : CsvLoad)
    (beh : Nat → String → AgentTask) :
    (run_parallel_system_threaded load beh).length = (loadRows load).length ∧
    ∀ msg : String, loadRows (CsvLoad.readError msg) = dummyRows := by
  constructor
  · unfold run_parallel_system_threaded
    rw [List.length_map, List.enum_length]
  · intro msg
    rfl

/-- C5: the Judgment Capability is total over every service behaviour: a
parsed reply is returned as-is, and any raised failure is converted into the
degraded result with score 0, an explanation naming the failure, and empty
node and edge lists. -/
theorem C5_judgment_error_policy (svc : JudgeSvc) (cn cd : String)
    (content : JValue) :
    (∀ e : String, svc cn cd content = Except.error e →
      run_judgment_llm svc cn cd content = JValue.obj
        [("score", JValue.num 0),
         ("explanation", JValue.str ("Judge crashed: " ++ e)),
         ("graph_nodes", JValue.arr []),
         ("graph_edges", JValue.arr [])]) ∧
    (∀ v : JValue, svc cn cd content = Except.ok v →
      run_judgment_llm svc cn cd content = v) := by
  constructor
  · intro e he
    unfold run_judgment_llm
    rw [he]
  · intro v hv
    unfold run_judgment_llm
    rw [hv]

/-- C5 witness. -/
theorem C5_witness :
    run_judgment_llm svcRaise "Accuracy" "desc" (JValue.str "t") = JValue.obj
      [("score", JValue.num 0),
       ("explanation", JValue.str ("Judge crashed: " ++ "timeout")),
       ("graph_nodes", JValue.arr []),
       ("graph_edges", JValue.arr [])] :=
  (C5_judgment_error_policy svcRaise "Accuracy" "desc" (JValue.str "t")).1
    "timeout" rfl

/-- C6 counterexample: when the service reply parses to a JSON array, the
callback raises an AttributeError instead of returning the five-field
success structure, so the claim's universal shape guarantee fails. -/
theorem C6_claim_false :
    handle_tool_call svcArr "Accuracy" "desc" tcText (JValue.str "ctx")
      = Except.error "AttributeError: result has no attribute get" := rfl

/-- C6 (amended): the callback judges the model-supplied text_content
argument when present (falling back to the context text when the argument
is absent or args is empty), and returns exactly the five-field structure
with status success whenever the capability's result is a JSON object;
when the parsed result is a non-object JSON value it raises instead. -/
theorem C6_callback_shape (svc : JudgeSvc) (n d : String) (tc : ToolCall)
    (ctx : JValue) :
    (∀ v : JValue, dictGet tc.args "text_content" = some v →
      toolArgText tc ctx = v) ∧
    (dictGet tc.args "text_content" = none → toolArgText tc ctx = ctx) ∧
    (∀ fields : Dict,
      run_judgment_llm svc n d (toolArgText tc ctx) = JValue.obj fields →
      handle_tool_call svc n d tc ctx = Except.ok (JValue.obj
        [("status", JValue.str "success"),
         ("judgment_score", pyGet fields "score"),
         ("judgment_reason", pyGet fields "explanation"),
         ("graph_nodes", pyGetD fields "graph_nodes" (JValue.arr [])),
         ("graph_edges", pyGetD fields "graph_edges" (JValue.arr []))])) := by
  refine ⟨?_, ?_, ?_⟩
  · intro v hv
    unfold toolArgText
    cases ha : tc.args with
    | nil =>
        rw [ha] at hv
        simp [dictGet] at hv
    | cons p rest =>
        rw [ha] at hv
        rw [hv]
  · intro hv
    unfold toolArgText
    cases ha : tc.args with
    | nil => rfl
    | cons p rest =>
        rw [ha] at hv
        rw [hv]
  · intro fields hr
    unfold handle_tool_call
    rw [hr]

/-- C6 witness. -/
theorem C6_witness :
    toolArgText tcText (JValue.str "ctx") = JValue.str "t" ∧
    toolArgText tcEmpty (JValue.str "ctx") = JValue.str "ctx" ∧
    handle_tool_call svcScore1 "Accuracy" "d" tcText (JValue.str "ctx")
      = Except.ok resultScore1 :=
  ⟨(C6_callback_shape svcScore1 "Accuracy" "d" tcText (JValue.str "ctx")).1
      (JValue.str "t") rfl,
   (C6_callback_shape svcScore1 "Accuracy" "d" tcEmpty (JValue.str "ctx")).2.1 rfl,
   (C6_callback_shape svcScore1 "Accuracy" "d" tcText (JValue.str "ctx")).2.2
      [("score", JValue.num 1), ("explanation", JValue.str "looks good"),
       ("graph_nodes", JValue.arr []), ("graph_edges", JValue.arr [])] rfl⟩

/-- C10: every record the callback returns carries status "success", even
when the capability failed and produced its degraded score-0 result; the
failure is visible only in the reason string. -/
theorem C10_status_always_success (svc : JudgeSvc) (n d : String)
    (tc : ToolCall) (ctx : JValue) :
    (∀ fields : Dict,
      handle_tool_call svc n d tc ctx = Except.ok (JValue.obj fields) →
      dictGet fields "status" = some (JValue.str "success")) ∧
    (∀ e : String, svc n d (toolArgText tc ctx) = Except.error e →
      handle_tool_call svc n d tc ctx = Except.ok (JValue.obj
        [("status", JValue.str "success"),
         ("judgment_score", JValue.num 0),
         ("judgment_reason", JValue.str ("Judge crashed: " ++ e)),
         ("graph_nodes", JValue.arr []),
         ("graph_edges", JValue.arr [])])) := by
  constructor
  · intro fields h
    obtain ⟨fs, hr, hres⟩ := handle_tool_call_ok_inv svc n d tc ctx _ h
    have hfe := JValue.obj.inj hres
    rw [hfe]
    rfl
  · intro e he
    unfold handle_tool_call run_judgment_llm
    rw [he]
    rfl

/-- C10 witness. -/
theorem C10_witness :
    handle_tool_call svcRaise "Accuracy" "d" tcEmpty (JValue.str "c")
      = Except.ok (JValue.obj
        [("status", JValue.str "success"),
         ("judgment_score", JValue.num 0),
         ("judgment_reason", JValue.str ("Judge crashed: " ++ "timeout")),
         ("graph_nodes", JValue.arr []),
         ("graph_edges", JValue.arr [])]) ∧
    dictGet
      [("status", JValue.str "success"),
       ("judgment_score", JValue.num 0),
       ("judgment_reason", JValue.str ("Judge crashed: " ++ "timeout")),
       ("graph_nodes", JValue.arr []),
       ("graph_edges", JValue.arr [])] "status" = some (JValue.str "success") := by
  have h2 := (C10_status_always_success svcRaise "Accuracy" "d" tcEmpty
    (JValue.str "c")).2 "timeout" rfl
  exact ⟨h2, (C10_status_always_success svcRaise "Accuracy" "d" tcEmpty
    (JValue.str "c")).1 _ h2⟩

/-- C4 counterexample: when the service's reply parses to a dict whose score
is 2, the enriched row's grade field is 2 — not an integer in 0/1 as
claimed. -/
theorem C4_claim_false :
    dictGet (process_single_row_threaded
        [("id", JValue.num 1), ("Answer", JValue.str "a")]
        [("Accuracy", AgentTask.ran envCall
            (handle_tool_call svcScore2 "Accuracy" "desc"))])
      ("Accuracy" ++ "_grade") = some (JValue.num 2) ∧
    ((2 : Int) == 0) = false ∧ ((2 : Int) == 1) = false :=
  ⟨rfl, by decide, by decide⟩

/-- C4 (amended): the grade field is 0 or 1 on every failure path and
whenever every dict the service's replies parse to carries score 0 or 1; a
non-conforming score value is forwarded into the grade field unvalidated. -/
theorem C4_grade_conforms (row : Dict) (agents : List (String × AgentTask))
    (n desc : String) (svc : JudgeSvc) (env : ChatEnv)
    (hmem : (n, AgentTask.ran env (handle_tool_call svc n desc)) ∈ agents)
    (hnd : (namesOf agents).Nodup)
    (hsvc : ∀ (content : JValue) (fields : Dict),
        svc n desc content = Except.ok (JValue.obj fields) →
        pyGet fields "score" = JValue.num 0 ∨ pyGet fields "score" = JValue.num 1) :
    dictGet (process_single_row_threaded row agents) (n ++ "_grade")
        = some (JValue.num 0) ∨
    dictGet (process_single_row_threaded row agents) (n ++ "_grade")
        = some (JValue.num 1) := by
  rw [dictGet_process_of_uniq row agents n env (handle_tool_call svc n desc)
    (n ++ "_grade") hmem hnd (by simp [agentKeys])]
  exact run_grade_conform n desc svc env (pyGet row "Answer") hsvc

/-- C4 witness. -/
theorem C4_witness :
    dictGet (process_single_row_threaded [("Answer", JValue.str "hi")]
        [("Accuracy", AgentTask.ran envCall
            (handle_tool_call svcScore1 "Accuracy" "dd"))])
      ("Accuracy" ++ "_grade") = some (JValue.num 0) ∨
    dictGet (process_single_row_threaded [("Answer", JValue.str "hi")]
        [("Accuracy", AgentTask.ran envCall
            (handle_tool_call svcScore1 "Accuracy" "dd"))])
      ("Accuracy" ++ "_grade") = some (JValue.num 1) :=
  C4_grade_conforms [("Answer", JValue.str "hi")] _ "Accuracy" "dd" svcScore1
    envCall (List.mem_singleton.mpr rfl) (by decide)
    (by
      intro c fields hf
      have h1 : fields =
          [("score", JValue.num 1), ("explanation", JValue.str "looks good"),
           ("graph_nodes", JValue.arr []), ("graph_edges", JValue.arr [])] :=
        (JValue.obj.inj (Except.ok.inj hf)).symm
      rw [h1]
      exact Or.inr rfl)

/-- C7 counterexample: an input row that already carries a field named
Accuracy_grade has it overwritten by the merge (value 5 becomes 0), so not
every input field keeps its input value. -/
theorem C7_claim_false :
    dictGet (process_single_row_threaded
        [("id", JValue.num 7), ("Answer", JValue.str "hi"),
         ("Accuracy_grade", JValue.num 5)]
        [("Accuracy", AgentTask.ran envRaise
            (handle_tool_call svcScore1 "Accuracy" "desc"))])
      "Accuracy_grade" = some (JValue.num 0) ∧
    dictGet
      [("id", JValue.num 7), ("Answer", JValue.str "hi"),
       ("Accuracy_grade", JValue.num 5)]
      "Accuracy_grade" = some (JValue.num 5) ∧
    ((0 : Int) == 5) = false :=
  ⟨rfl, rfl, by decide⟩

/-- C7 (amended): every input field whose name is not one of an active
agent's three generated keys keeps its input value; the identifier field
id and the subject-text field Answer can never collide with a generated
key, so they are preserved for every row and every agent set. -/
theorem C7_fields_preserved (row : Dict) (agents : List (String × AgentTask)) :
    (∀ k : String, (∀ n task, (n, task) ∈ agents → k ∉ agentKeys n) →
      dictGet (process_single_row_threaded row agents) k = dictGet row k) ∧
    dictGet (process_single_row_threaded row agents) "id" = dictGet row "id" ∧
    dictGet (process_single_row_threaded row agents) "Answer"
      = dictGet row "Answer" := by
  have hgen : ∀ k : String, (∀ n task, (n, task) ∈ agents → k ∉ agentKeys n) →
      dictGet (process_single_row_threaded row agents) k = dictGet row k := by
    intro k hk
    rw [dictGet_process, occ_records_nil (pyGet row "Answer") agents k hk]
    rfl
  exact ⟨hgen, hgen "id" (fun n task _ => id_not_agentKey n),
    hgen "Answer" (fun n task _ => answer_not_agentKey n)⟩

/-- C7 witness. -/
theorem C7_witness :
    dictGet (process_single_row_threaded
        [("id", JValue.num 3), ("Answer", JValue.str "b"), ("extra", JValue.num 9)]
        [("Empathy", AgentTask.ran envRaise
            (handle_tool_call svcScore1 "Empathy" "de"))]) "extra"
      = dictGet
        [("id", JValue.num 3), ("Answer", JValue.str "b"), ("extra", JValue.num 9)]
        "extra" :=
  (C7_fields_preserved
      [("id", JValue.num 3), ("Answer", JValue.str "b"), ("extra", JValue.num 9)]
      [("Empathy", AgentTask.ran envRaise
          (handle_tool_call svcScore1 "Empathy" "de"))]).1 "extra"
    (by
      intro n task hmem
      have hn : n = "Empathy" := congrArg Prod.fst (List.mem_singleton.mp hmem)
      rw [hn]
      decide)

/-- C8: whenever the protocol itself ran for an (agent, row) pair — under
any chat behaviour, handler, and service behaviour — the enriched row
contains all three of that agent's fields: grade, reason and graph. -/
theorem C8_triple_present (row : Dict) (agents : List (String × AgentTask))
    (n : String) (env : ChatEnv) (hdl : Handler)
    (hmem : (n, AgentTask.ran env hdl) ∈ agents) :
    (dictGet (process_single_row_threaded row agents) (n ++ "_grade")).isSome ∧
    (dictGet (process_single_row_threaded row agents) (n ++ "_reason")).isSome ∧
    (dictGet (process_single_row_threaded row agents) (n ++ "_graph")).isSome :=
  ⟨process_key_isSome row agents n env hdl _ hmem (by simp [agentKeys]),
   process_key_isSome row agents n env hdl _ hmem (by simp [agentKeys]),
   process_key_isSome row agents n env hdl _ hmem (by simp [agentKeys])⟩

/-- C8 witness. -/
theorem C8_witness :
    (dictGet (process_single_row_threaded [("Answer", JValue.str "w")]
        [("Completeness", AgentTask.ran envRaise
            (handle_tool_call svcScore1 "Completeness" "dc"))])
      ("Completeness" ++ "_grade")).isSome ∧
    (dictGet (process_single_row_threaded [("Answer", JValue.str "w")]
        [("Completeness", AgentTask.ran envRaise
            (handle_tool_call svcScore1 "Completeness" "dc"))])
      ("Completeness" ++ "_reason")).isSome ∧
    (dictGet (process_single_row_threaded [("Answer", JValue.str "w")]
        [("Completeness", AgentTask.ran envRaise
            (handle_tool_call svcScore1 "Completeness" "dc"))])
      ("Completeness" ++ "_graph")).isSome :=
  C8_triple_present [("Answer", JValue.str "w")] _ "Completeness" envRaise
    (handle_tool_call svcScore1 "Completeness" "dc") (List.mem_singleton.mpr rfl)

/-- C9: with pairwise distinct agent names the enriched row is, as a
mapping, independent of the fan-in completion order: any permutation of the
per-agent merge order yields the same value at every key. -/
theorem C9_merge_order_independent (row : Dict)
    (agents agents2 : List (String × AgentTask))
    (hperm : agents2.Perm agents) (hnd : (namesOf agents).Nodup) (k : String) :
    dictGet (process_single_row_threaded row agents2) k
      = dictGet (process_single_row_threaded row agents) k := by
  rw [dictGet_process, dictGet_process]
  have hrecs : (agentRecords (pyGet row "Answer") agents2).Perm
      (agentRecords (pyGet row "Answer") agents) :=
    hperm.filterMap (taskRecord (pyGet row "Answer"))
  have hflat := hrecs.flatten
  have hocc : (occ (agentRecords (pyGet row "Answer") agents2).flatten k).Perm
      (occ (agentRecords (pyGet row "Answer") agents).flatten k) :=
    List.Perm.filterMap _ hflat
  have hlen := occ_flat_length_le_one (pyGet row "Answer") agents k hnd
  rw [eq_of_perm_of_len_le_one _ _ hocc hlen]

/-- C9 witness. -/
theorem C9_witness :
    dictGet (process_single_row_threaded [("Answer", JValue.str "z")]
        [("Empathy", AgentTask.ran envRaise
            (handle_tool_call svcScore1 "Empathy" "d2")),
         ("Accuracy", AgentTask.ran envRaise
            (handle_tool_call svcScore1 "Accuracy" "d1"))])
      "Accuracy_grade"
      = dictGet (process_single_row_threaded [("Answer", JValue.str "z")]
        [("Accuracy", AgentTask.ran envRaise
            (handle_tool_call svcScore1 "Accuracy" "d1")),
         ("Empathy", AgentTask.ran envRaise
            (handle_tool_call svcScore1 "Empathy" "d2"))])
      "Accuracy_grade" :=
  C9_merge_order_independent [("Answer", JValue.str "z")]
    [("Accuracy", AgentTask.ran envRaise
        (handle_tool_call svcScore1 "Accuracy" "d1")),
     ("Empathy", AgentTask.ran envRaise
        (handle_tool_call svcScore1 "Empathy" "d2"))]
    [("Empathy", AgentTask.ran envRaise
        (handle_tool_call svcScore1 "Empathy" "d2")),
     ("Accuracy", AgentTask.ran envRaise
        (handle_tool_call svcScore1 "Accuracy" "d1"))]
    (List.Perm.swap _ _ _) (by decide) "Accuracy_grade"

end Swsn
